import Mathlib

/-!
Shallow embedding of the eventing subsystem (`internal/subsystem/event.go`) and
of the dependency scanner (`internal/system/packagemanager/packagemanager.go`)
of the wails repository, together with proofs about the claims on them.

Modelling conventions:
* Go callbacks (`func(...interface{})`) are opaque values; we represent a
  callback by a `Nat` identifier and record every launched invocation as a
  `Launch` value carrying the callback identifier and the argument list.
* The variadic `...interface{}` data is a `List α` for a type parameter `α`.
* `map[string][]*eventListener` is modelled as `String → Option (List EventListener)`;
  `none` is Go's nil slice returned for a missing key (values stored by the code
  are always non-nil: they come from `append` or from a slice literal).
* Pointer mutation of listener records inside `notifyListeners` is modelled by
  value: the updated records are stored back under the event name, which is
  observationally the in-place mutation the Go code performs.
-/

namespace Wails

/-- Embeds Go struct `eventListener` (event.go): callback, counter (int64),
delete flag. The Go doc comment on the struct says a counter of zero means the
listener does not expire. -/
structure EventListener where
  callback : Nat
  counter : Int
  delete : Bool
deriving DecidableEq, Repr

/-- Embeds the field `listeners map[string][]*eventListener` of Go struct
`Event`. `none` models the nil slice a Go map lookup yields on a missing key. -/
def Registry : Type := String → Option (List EventListener)

/-- The listeners map made by `NewEvent` via `make(map[string][]*eventListener)`:
empty, every lookup yields nil. -/
def emptyListeners : Registry := fun _ => none

/-- Embeds `(*Event).RegisterListener` (event.go lines 63-76): append a record
with counter 0 and delete false to the slice for `eventName`. Go's `append` on
the nil slice of a missing key yields a one-element slice, hence `getD []`. -/
def RegisterListener (reg : Registry) (eventName : String) (callback : Nat) :
    Registry :=
  fun k =>
    if k = eventName then
      some ((reg eventName).getD [] ++ [{ callback := callback, counter := 0, delete := false }])
    else reg k

/-- The counter update of the notify loop (event.go lines 156-158):
`if listener.counter > 0 { listener.counter-- }`. -/
def decCounter (c : Int) : Int := if 0 < c then c - 1 else c

/-- The per-record mutation performed by one iteration of the loop in
`notifyListeners` (event.go lines 155-166): decrement a positive counter, then
mark the record for deletion when the resulting counter equals zero. -/
def notifyStep (l : EventListener) : EventListener :=
  { l with
    counter := decCounter l.counter
    delete := if decCounter l.counter = 0 then true else l.delete }

/-- Embeds Go struct `message.EventMessage`: an event name and variadic data. -/
structure EventMessage (α : Type) where
  name : String
  data : List α
deriving DecidableEq, Repr

/-- One fire-and-forget callback invocation `go listener.callback(message.Data...)`
(event.go line 160), recorded as the callback identifier with its arguments. -/
structure Launch (α : Type) where
  callback : Nat
  args : List α
deriving DecidableEq, Repr

/-- Embeds `(*Event).notifyListeners` (event.go lines 139-187). Returns the
updated listeners map and, in loop order, the list of callback invocations the
call launched. Transcription of the Go body:
1. `listeners := e.listeners[eventName]`; nil means early return (only a
   diagnostic `println`).
2. under the lock, for each record: decrement positive counter, launch the
   callback, mark for deletion if the counter is now zero (`notifyStep`);
   `itemsToDelete` records whether any counter reached zero in this pass.
3. when `itemsToDelete`, rebuild the slice keeping non-marked records and store
   it back under `eventName`. (Storing the updated records when nothing is
   deleted models the in-place pointer mutation of step 2.) -/
def notifyListeners {α : Type} (reg : Registry) (eventName : String)
    (m : EventMessage α) : Registry × List (Launch α) :=
  match reg eventName with
  | none => (reg, [])
  | some listeners =>
      let updated := listeners.map notifyStep
      let launches := listeners.map (fun l => { callback := l.callback, args := m.data : Launch α })
      let itemsToDelete := listeners.any (fun l => decCounter l.counter = 0)
      let newListeners := if itemsToDelete then updated.filter (fun l => !l.delete) else updated
      (fun k => if k = eventName then some newListeners else reg k, launches)

/-- Semantic model of Go `strings.Split(topic, ":")` on the underlying
character list: splits at every colon, keeping empty segments, and always
yields at least one segment. -/
def splitColonAux (acc : List Char) : List Char → List (List Char)
  | [] => [acc.reverse]
  | c :: rest =>
      if c = ':' then acc.reverse :: splitColonAux [] rest
      else splitColonAux (c :: acc) rest

/-- Embeds `splitTopic := strings.Split(eventMessage.Topic(), ":")`
(event.go line 94). -/
def splitColon (s : String) : List String :=
  (splitColonAux [] s.data).map (fun cs => { data := cs })

/-- The dynamic type of the payload `eventMessage.Data()` carried by a bus
message: the Go code type-asserts it to `*message.EventMessage` on the emit
path and to `*message.OnEventMessage` on the on path. `other` stands for any
further dynamic type (the assertions panic on it). -/
inductive EventPayload (α : Type) where
  | eventMsg (m : EventMessage α)
  | onMsg (name : String) (callback : Nat)
  | other
deriving DecidableEq

/-- Outcome of one iteration of the run-loop body of `Start` on an inbound
event message: either a Go runtime panic (which kills the goroutine), or the
loop continues with the possibly-updated listeners map and an optional
asynchronous notification task `go e.notifyListeners(eventName, event)`. -/
inductive BodyResult (α : Type) where
  | panicked (reason : String)
  | next (reg : Registry) (task : Option (String × EventMessage α))

/-- Embeds the `case eventMessage := <-e.eventChannel` body of the run loop in
`(*Event).Start` (event.go lines 93-127). Transcription:
* `splitTopic[1]` is read unconditionally; with fewer than two segments this is
  a Go index-out-of-range panic.
* `emit`: a segment count other than 4 is logged and skipped; otherwise the
  payload is type-asserted to `*message.EventMessage` (panic on any other
  type), then source `j` or `g` spawns `go e.notifyListeners(event.Name, event)`
  while any other source is logged and dropped.
* `on`: the payload is type-asserted to `*message.OnEventMessage` (panic on
  any other type) and `RegisterListener` is called synchronously.
* any other operation: logged and skipped. -/
def handleEventMessage {α : Type} (reg : Registry) (topic : String)
    (payload : EventPayload α) : BodyResult α :=
  let splitTopic := splitColon topic
  match splitTopic[1]? with
  | none => .panicked "runtime error: index out of range"
  | some eventType =>
      if eventType = "emit" then
        if splitTopic.length ≠ 4 then
          .next reg none
        else
          match splitTopic[3]? with
          | none => .panicked "runtime error: index out of range"
          | some eventSource =>
              match payload with
              | .eventMsg event =>
                  if eventSource = "j" then .next reg (some (event.name, event))
                  else if eventSource = "g" then .next reg (some (event.name, event))
                  else .next reg none
              | _ => .panicked "interface conversion"
      else if eventType = "on" then
        match payload with
        | .onMsg name callback => .next (RegisterListener reg name callback) none
        | _ => .panicked "interface conversion"
      else .next reg none

/-- Abstract service bus: `Subscribe` either yields a channel or fails. The
channel type `χ` and error type `ε` are opaque. -/
structure ServiceBus (ε χ : Type) where
  subscribe : String → Except ε χ

/-- Embeds Go struct `Event` (event.go lines 24-36) as far as its observable
state goes: the two subscription channels, the `running` flag and the
listeners map. The loggers carry no state we track. -/
structure EventState (χ : Type) where
  quitChannel : χ
  eventChannel : χ
  running : Bool
  listeners : Registry

/-- Embeds `NewEvent` (event.go lines 38-60): subscribe to "quit", then to
"event", propagating either subscription error; on success build the `Event`
value with a fresh empty listeners map (`running` keeps Go's zero value
`false`). -/
def NewEvent {ε χ : Type} (bus : ServiceBus ε χ) : Except ε (EventState χ) :=
  match bus.subscribe "quit" with
  | .error err => .error err
  | .ok quitChannel =>
      match bus.subscribe "event" with
      | .error err => .error err
      | .ok eventChannel =>
          .ok { quitChannel := quitChannel, eventChannel := eventChannel,
                running := false, listeners := emptyListeners }

/-- The registry-relevant primitive operations `notifyListeners` performs, in
source order, used to reason about which of them the code runs while holding
`notifyLock`. -/
inductive RegistryOp where
  | mapRead
  | lockAcquire
  | counterUpdate
  | launchCallback
  | mapWrite
  | lockRelease
deriving DecidableEq, Repr

/-- Line-by-line trace of `notifyListeners` (event.go lines 139-187) as a
sequence of registry operations, parametrised by what the run encounters:
whether the map has an entry for the event name (`hasEntry`), how many records
the snapshot holds, and whether any counter reaches zero (`itemsToDelete`).
Source order: the map read `listeners := e.listeners[eventName]` (line 142)
happens first; `e.notifyLock.Lock()` (line 149) only after the nil check; then
per record a counter update and a callback launch; then the conditional
rebuild-and-store; then `e.notifyLock.Unlock()`. -/
def notifyListenersTrace (hasEntry : Bool) (listenerCount : Nat)
    (itemsToDelete : Bool) : List RegistryOp :=
  [RegistryOp.mapRead] ++
    (if hasEntry then
      [RegistryOp.lockAcquire] ++
        (List.replicate listenerCount
          [RegistryOp.counterUpdate, RegistryOp.launchCallback]).flatten ++
        (if itemsToDelete then [RegistryOp.mapWrite] else []) ++
        [RegistryOp.lockRelease]
    else [])

/-- The exclusive lock is held just before executing position `i` of an
operation trace: strictly more acquisitions than releases precede `i`. -/
def lockHeldAt (t : List RegistryOp) (i : Nat) : Prop :=
  (t.take i).count RegistryOp.lockRelease < (t.take i).count RegistryOp.lockAcquire

instance (t : List RegistryOp) (i : Nat) : Decidable (lockHeldAt t i) :=
  inferInstanceAs
    (Decidable ((t.take i).count RegistryOp.lockRelease < (t.take i).count RegistryOp.lockAcquire))

/-! Embedding of the dependency scanner of
`internal/system/packagemanager/packagemanager.go`. The `PackageManager`
interface is a record of query functions; `shell.RunCommand`-based version
lookups (`AppVersion`, not under study) are an opaque environment query. -/

/-- Embeds Go struct `Package` (packagemanager.go lines 21-29). The
`InstallCommand` map is only read through the `PackageManager.InstallCommand`
query, which is part of `PM` below. -/
structure Package where
  name : String
  version : String
  systemPackage : Bool
  library : Bool
  optional : Bool
deriving DecidableEq, Repr

/-- Embeds the `PackageManager` interface together with the environment the
scanner consults. `packages` lists the entries of the Go `packagemap` in the
(arbitrary) order map iteration yields them; `appVersion` models `AppVersion`,
whose value comes from shelling out (`shell.RunCommand` is outside the
excerpt), as an opaque query from dependency name to version string. -/
structure PM (ε : Type) where
  packages : List (String × List Package)
  packageAvailable : Package → Except ε Bool
  packageInstalled : Package → Except ε Bool
  installCommand : Package → String
  appVersion : String → String

/-- Embeds Go struct `Dependancy` (packagemanager.go lines 73-81). -/
structure Dependancy where
  name : String
  packageName : String
  installed : Bool
  installCommand : String
  version : String
  optional : Bool
  external : Bool
deriving DecidableEq, Repr

/-- The inner `for _, pkg := range packages` loop of `Dependancies`
(packagemanager.go lines 132-157), threading the mutable `dependency` record:
each package overwrites the optional/external/install-command fields; the
first available package fixes version and package name, queries installation,
and breaks out of the loop; query errors abort the whole scan. -/
def scanPackages {ε : Type} (p : PM ε) (name : String) :
    List Package → Dependancy → Except ε Dependancy
  | [], dep => .ok dep
  | pkg :: rest, dep =>
      let dep := { dep with
        optional := pkg.optional
        external := !pkg.systemPackage
        installCommand := p.installCommand pkg }
      match p.packageAvailable pkg with
      | .error err => .error err
      | .ok avail =>
          if avail then
            let dep := { dep with version := pkg.version, packageName := pkg.name }
            match p.packageInstalled pkg with
            | .error err => .error err
            | .ok inst =>
                if inst then
                  .ok { dep with
                    installed := true
                    version := if pkg.library then pkg.version else p.appVersion name }
                else
                  .ok { dep with installCommand := p.installCommand pkg }
          else scanPackages p name rest dep

/-- The outer `for name, packages := range p.Packages()` loop of
`Dependancies` (packagemanager.go lines 130-159): build one `Dependancy` per
map entry, starting from `&Dependancy{Name: name}` (all other fields Go zero
values), aborting on the first error. -/
def collectDeps {ε : Type} (p : PM ε) :
    List (String × List Package) → Except ε (List Dependancy)
  | [] => .ok []
  | (name, pkgs) :: rest =>
      match scanPackages p name pkgs
          { name := name, packageName := "", installed := false,
            installCommand := "", version := "", optional := false,
            external := false } with
      | .error err => .error err
      | .ok dep =>
          match collectDeps p rest with
          | .error err => .error err
          | .ok deps => .ok (dep :: deps)

/-- Go's byte-wise string comparison `a < b`, modelled lexicographically on
the character list, as non-strict `≤`. -/
def lexLe : List Char → List Char → Bool
  | [], _ => true
  | _ :: _, [] => false
  | a :: as, b :: bs => if a < b then true else if b < a then false else lexLe as bs

/-- The order `Dependancies` sorts by: ascending `Name`
(`dependencies[i].Name < dependencies[j].Name` at packagemanager.go
lines 162-164, stated non-strictly). -/
def depLe (a b : Dependancy) : Prop := lexLe a.name.data b.name.data = true

instance : DecidableRel depLe := fun a b =>
  inferInstanceAs (Decidable (lexLe a.name.data b.name.data = true))

/-- Embeds `Dependancies` (packagemanager.go lines 128-170): run the scan over
all map entries, then sort the result ascending by `Name` (`sort.Slice`
post-state modelled by an insertion sort under `depLe`). -/
def Dependancies {ε : Type} (p : PM ε) : Except ε (List Dependancy) :=
  match collectDeps p p.packages with
  | .error err => .error err
  | .ok deps => .ok (List.insertionSort depLe deps)

/-! Auxiliary order lemmas for the sort order of `Dependancies`. -/

theorem lexLe_total : ∀ as bs : List Char, lexLe as bs = true ∨ lexLe bs as = true := by
  intro as
  induction as with
  | nil => intro bs; left; rfl
  | cons a as ih =>
    intro bs
    cases bs with
    | nil => right; rfl
    | cons b bs =>
      simp only [lexLe]
      rcases lt_trichotomy a b with h | h | h
      · left; simp [h, not_lt.mpr h.le]
      · subst h; simpa [lt_irrefl] using ih bs
      · right; simp [h, not_lt.mpr h.le]

theorem lexLe_trans : ∀ as bs cs : List Char,
    lexLe as bs = true → lexLe bs cs = true → lexLe as cs = true := by
  intro as
  induction as with
  | nil => intro bs cs _ _; rfl
  | cons a as ih =>
    intro bs cs h1 h2
    cases bs with
    | nil => simp [lexLe] at h1
    | cons b bs =>
      cases cs with
      | nil => simp [lexLe] at h2
      | cons c cs =>
        simp only [lexLe] at h1 h2 ⊢
        rcases lt_trichotomy a b with hab | hab | hab
        · rcases lt_trichotomy b c with hbc | hbc | hbc
          · simp [lt_trans hab hbc]
          · subst hbc; simp [hab]
          · simp [hbc, not_lt.mpr hbc.le] at h2
        · subst hab
          rcases lt_trichotomy a c with hac | hac | hac
          · simp [hac]
          · subst hac
            simp only [lt_irrefl, if_false] at h1 h2 ⊢
            exact ih _ _ h1 h2
          · simp [hac, not_lt.mpr hac.le] at h2
        · simp [hab, not_lt.mpr hab.le] at h1

instance : IsTotal Dependancy depLe :=
  ⟨fun a b => lexLe_total a.name.data b.name.data⟩

instance : IsTrans Dependancy depLe :=
  ⟨fun a b c => lexLe_trans a.name.data b.name.data c.name.data⟩

/-! Theorems about the claims. -/

/-- C1: the claim says a listener registered via `RegisterListener` (counter
0, unlimited lifetime) is never marked for removal by `notifyListeners` and is
invoked on every subsequent notification. The code does the opposite: after
registering one listener for `"x"` and notifying once, the first call launches
the callback but the rebuilt sequence for `"x"` is empty (the counter-0 record
was marked for removal), and a second notification launches nothing. -/
theorem c1_unlimited_listener_removed_after_first_notify :
    (notifyListeners (RegisterListener emptyListeners "x" 1) "x"
        { name := "x", data := ([] : List Nat) }).2 =
      [{ callback := 1, args := [] }]
    ∧ (notifyListeners (RegisterListener emptyListeners "x" 1) "x"
        { name := "x", data := ([] : List Nat) }).1 "x" = some []
    ∧ (notifyListeners
        ((notifyListeners (RegisterListener emptyListeners "x" 1) "x"
            { name := "x", data := ([] : List Nat) }).1) "x"
        { name := "x", data := ([] : List Nat) }).2 = [] := by
  refine ⟨by decide, by decide, by decide⟩

/-- C2: the claim says the run-loop body never panics on any topic string,
including one with fewer than two colon-separated segments. The code reads
`splitTopic[1]` unconditionally, so the one-segment topic `"event"` panics
with an index-out-of-range runtime error, whatever the payload is. -/
theorem c2_one_segment_topic_panics :
    handleEventMessage (α := Nat) emptyListeners "event" .other =
      .panicked "runtime error: index out of range"
    ∧ handleEventMessage (α := Nat) emptyListeners "event"
        (.eventMsg { name := "clicked", data := [1, 2, 3] }) =
      .panicked "runtime error: index out of range" := by
  exact ⟨rfl, rfl⟩

/-- C3: the claim says the lookup and snapshot of the sequence in
`notifyListeners` happen while holding the registry lock. In the source-order
trace of `notifyListeners` the map read is the first operation, performed
before the lock is acquired (so with the lock not held), while the counter
updates and the cleanup map write do run under the lock. -/
theorem c3_map_read_happens_before_lock_acquire :
    (notifyListenersTrace true 1 false).head? = some RegistryOp.mapRead
    ∧ ¬ lockHeldAt (notifyListenersTrace true 1 false) 0
    ∧ lockHeldAt (notifyListenersTrace true 1 false) 2
    ∧ lockHeldAt (notifyListenersTrace true 1 true) 4 := by
  refine ⟨by decide, by decide, by decide, by decide⟩

/-- C4: every record in the snapshot taken by `notifyListeners` has its
callback launched exactly once with the message's data, in snapshot order; a
positive counter is decremented by exactly one and any other counter is left
unchanged; and a freshly registered callback is launched exactly once with the
message's data by the next notification for its event name. -/
theorem c4_snapshot_records_launched_once {α : Type} [DecidableEq α]
    (reg : Registry) (x : String) (m : EventMessage α) (L : List EventListener)
    (cb : Nat) (hL : reg x = some L) (hfresh : ∀ l ∈ L, l.callback ≠ cb) :
    (notifyListeners reg x m).2 =
      L.map (fun l => { callback := l.callback, args := m.data })
    ∧ (∀ l ∈ L, (notifyStep l).counter =
        if 0 < l.counter then l.counter - 1 else l.counter)
    ∧ List.count { callback := cb, args := m.data : Launch α }
        (notifyListeners (RegisterListener reg x cb) x m).2 = 1 := by
  refine ⟨by simp [notifyListeners, hL], ?_, ?_⟩
  · intro l _
    simp [notifyStep, decCounter]
  · have hreg : RegisterListener reg x cb x =
        some (L ++ [{ callback := cb, counter := 0, delete := false }]) := by
      simp [RegisterListener, hL]
    simp only [notifyListeners, hreg, List.map_append, List.count_append]
    rw [List.count_eq_zero.mpr]
    · simp [List.count_cons]
    · intro hmem
      rcases List.mem_map.mp hmem with ⟨l, hl, hEq⟩
      exact hfresh l hl (congrArg Launch.callback hEq)

/-- C4 witness: one listener with callback 5 registered for `"x"`, then a
fresh callback 7 registered and notified with data `[1, 2]`. -/
theorem c4_snapshot_records_launched_once_witness :
    (notifyListeners (RegisterListener emptyListeners "x" 5) "x"
        { name := "x", data := [1, 2] }).2 =
      [{ callback := 5, args := [1, 2] }]
    ∧ (∀ l ∈ [({ callback := 5, counter := 0, delete := false } : EventListener)],
        (notifyStep l).counter = if 0 < l.counter then l.counter - 1 else l.counter)
    ∧ List.count { callback := 7, args := [1, 2] : Launch Nat }
        (notifyListeners
          (RegisterListener (RegisterListener emptyListeners "x" 5) "x" 7) "x"
          { name := "x", data := [1, 2] }).2 = 1 :=
  c4_snapshot_records_launched_once (RegisterListener emptyListeners "x" 5) "x"
    { name := "x", data := [1, 2] }
    [{ callback := 5, counter := 0, delete := false }] 7
    (by decide) (by decide)

/-- C5: when some snapshot record's positive counter reaches exactly zero by
the decrement of a `notifyListeners` call, that call's cleanup stores back,
under the event name, exactly the updated snapshot records that are not marked
for removal; every record whose positive counter reached zero is marked, hence
absent from the rebuilt sequence. -/
theorem c5_expired_record_absent_after_cleanup {α : Type}
    (reg : Registry) (x : String) (m : EventMessage α) (L : List EventListener)
    (hL : reg x = some L)
    (hdel : ∃ l ∈ L, 0 < l.counter ∧ decCounter l.counter = 0) :
    (notifyListeners reg x m).1 x =
      some ((L.map notifyStep).filter (fun l => !l.delete))
    ∧ ∀ l ∈ L, 0 < l.counter → decCounter l.counter = 0 →
        notifyStep l ∉ (L.map notifyStep).filter (fun l => !l.delete) := by
  constructor
  · have hany : L.any (fun l => decCounter l.counter = 0) = true := by
      rcases hdel with ⟨l, hl, _, hz⟩
      exact List.any_eq_true.mpr ⟨l, hl, by simp [hz]⟩
    simp [notifyListeners, hL, hany]
  · intro l _ _ hz hmem
    have hdelete : (notifyStep l).delete = true := by
      simp [notifyStep, hz]
    have := (List.mem_filter.mp hmem).2
    rw [hdelete] at this
    simp at this

/-- C5 witness: one listener for `"x"` with counter 1; a single notification
decrements it to zero, and the stored sequence for `"x"` is the empty filter
result, from which the updated record is absent. -/
theorem c5_expired_record_absent_after_cleanup_witness :
    (notifyListeners
        (fun k => if k = "x" then
          some [{ callback := 2, counter := 1, delete := false }] else none)
        "x" { name := "x", data := ([] : List Nat) }).1 "x" =
      some (([({ callback := 2, counter := 1, delete := false } :
          EventListener)].map notifyStep).filter (fun l => !l.delete))
    ∧ ∀ l ∈ [({ callback := 2, counter := 1, delete := false } : EventListener)],
        0 < l.counter → decCounter l.counter = 0 →
        notifyStep l ∉
          ([({ callback := 2, counter := 1, delete := false } :
              EventListener)].map notifyStep).filter (fun l => !l.delete) :=
  c5_expired_record_absent_after_cleanup
    (fun k => if k = "x" then
      some [{ callback := 2, counter := 1, delete := false }] else none)
    "x" { name := "x", data := ([] : List Nat) }
    [{ callback := 2, counter := 1, delete := false }]
    (by decide)
    ⟨{ callback := 2, counter := 1, delete := false }, by decide, by decide, by decide⟩

/-- C6: notifying an event name with no registered listeners (no map entry,
i.e. a nil lookup, or a stored empty sequence) is a no-op: the call returns
without panicking, launches no callback, and leaves the whole listeners map
unchanged. -/
theorem c6_notify_without_listeners_is_noop {α : Type}
    (reg : Registry) (x : String) (m : EventMessage α)
    (h : reg x = none ∨ reg x = some []) :
    (notifyListeners reg x m).1 = reg ∧ (notifyListeners reg x m).2 = [] := by
  rcases h with h | h
  · constructor <;> simp [notifyListeners, h]
  · constructor
    · funext k
      by_cases hk : k = x
      · subst hk; simp [notifyListeners, h]
      · simp [notifyListeners, h, hk]
    · simp [notifyListeners, h]

/-- C6 witness: notifying `"unknown-event"` on the empty registry and on a
registry whose sequence for that name is stored empty. -/
theorem c6_notify_without_listeners_is_noop_witness :
    ((notifyListeners emptyListeners "unknown-event"
        { name := "unknown-event", data := ([] : List Nat) }).1 = emptyListeners
      ∧ (notifyListeners emptyListeners "unknown-event"
          { name := "unknown-event", data := ([] : List Nat) }).2 = [])
    ∧ ((notifyListeners (fun k => if k = "unknown-event" then some [] else none)
          "unknown-event" { name := "unknown-event", data := ([] : List Nat) }).1 =
        (fun k => if k = "unknown-event" then some [] else none)
      ∧ (notifyListeners (fun k => if k = "unknown-event" then some [] else none)
          "unknown-event" { name := "unknown-event", data := ([] : List Nat) }).2 = []) :=
  ⟨c6_notify_without_listeners_is_noop emptyListeners "unknown-event"
      { name := "unknown-event", data := ([] : List Nat) } (Or.inl rfl),
    c6_notify_without_listeners_is_noop
      (fun k => if k = "unknown-event" then some [] else none) "unknown-event"
      { name := "unknown-event", data := ([] : List Nat) } (Or.inr (by decide))⟩

/-- C7: on a well-formed emit message (topic of exactly four segments whose
operation segment is `emit`) carrying an event payload, the run-loop body
dispatches an asynchronous notification task for the payload's event name
exactly when the source segment is `j` or `g`; any other source leaves the
listeners map unchanged and dispatches nothing. -/
theorem c7_emit_dispatches_iff_source_known {α : Type}
    (reg : Registry) (topic s0 s2 src : String) (m : EventMessage α)
    (h : splitColon topic = [s0, "emit", s2, src]) :
    handleEventMessage reg topic (.eventMsg m) =
      .next reg (if src = "j" ∨ src = "g" then some (m.name, m) else none) := by
  by_cases hj : src = "j"
  · simp [handleEventMessage, h, hj]
  · by_cases hg : src = "g" <;> simp [handleEventMessage, h, hj, hg]

/-- C7 witness: source `j` of topic `event:emit:x:j` dispatches the task,
source `q` of topic `event:emit:x:q` does not. -/
theorem c7_emit_dispatches_iff_source_known_witness :
    handleEventMessage emptyListeners "event:emit:x:j"
        (.eventMsg { name := "clicked", data := [1, 2, 3] }) =
      .next emptyListeners
        (if ("j" : String) = "j" ∨ ("j" : String) = "g" then
          some ("clicked", { name := "clicked", data := [1, 2, 3] }) else none)
    ∧ handleEventMessage emptyListeners "event:emit:x:q"
        (.eventMsg { name := "clicked", data := ([1, 2, 3] : List Nat) }) =
      .next emptyListeners
        (if ("q" : String) = "j" ∨ ("q" : String) = "g" then
          some ("clicked", { name := "clicked", data := [1, 2, 3] }) else none) :=
  ⟨c7_emit_dispatches_iff_source_known emptyListeners "event:emit:x:j"
      "event" "x" "j" { name := "clicked", data := [1, 2, 3] } rfl,
    c7_emit_dispatches_iff_source_known emptyListeners "event:emit:x:q"
      "event" "x" "q" { name := "clicked", data := [1, 2, 3] } rfl⟩

/-- C8: `NewEvent` fails exactly when subscribing to the `quit` channel or to
the `event` channel fails, and on success the returned value holds both
subscribed channels, a fresh empty listeners map, and is not yet running. -/
theorem c8_newEvent_error_iff_subscription_fails {ε χ : Type}
    (bus : ServiceBus ε χ) :
    ((∃ err, NewEvent bus = .error err) ↔
      (∃ err, bus.subscribe "quit" = .error err)
      ∨ (∃ err, bus.subscribe "event" = .error err))
    ∧ ∀ s, NewEvent bus = .ok s →
        bus.subscribe "quit" = .ok s.quitChannel
        ∧ bus.subscribe "event" = .ok s.eventChannel
        ∧ s.listeners = emptyListeners ∧ s.running = false := by
  cases hq : bus.subscribe "quit" with
  | error e => simp [NewEvent, hq]
  | ok q =>
      cases he : bus.subscribe "event" with
      | error e => simp [NewEvent, hq, he]
      | ok c =>
          constructor
          · simp [NewEvent, hq, he]
          · intro s hs
            simp only [NewEvent, hq, he, Except.ok.injEq] at hs
            subst hs
            exact ⟨rfl, rfl, rfl, rfl⟩

/-- C8 witness: a bus whose subscriptions always succeed yields an event
subsystem holding both channels and the empty listeners map. -/
theorem c8_newEvent_error_iff_subscription_fails_witness :
    (ServiceBus.mk (ε := Unit) (fun c => .ok c)).subscribe "quit" =
      .ok (EventState.mk "quit" "event" false emptyListeners).quitChannel
    ∧ (ServiceBus.mk (ε := Unit) (fun c => .ok c)).subscribe "event" =
      .ok (EventState.mk "quit" "event" false emptyListeners).eventChannel
    ∧ (EventState.mk "quit" "event" false emptyListeners).listeners = emptyListeners
    ∧ (EventState.mk "quit" "event" false emptyListeners).running = false :=
  (c8_newEvent_error_iff_subscription_fails
      (ServiceBus.mk (ε := Unit) (fun c => .ok c))).2
    (EventState.mk "quit" "event" false emptyListeners) rfl

/-- C9: whenever `Dependancies` returns successfully, the returned dependency
list is sorted in ascending order of the `Name` field. -/
theorem c9_dependancies_sorted_by_name {ε : Type} (p : PM ε)
    (l : List Dependancy) (h : Dependancies p = .ok l) :
    List.Sorted depLe l := by
  unfold Dependancies at h
  cases hc : collectDeps p p.packages with
  | error e => rw [hc] at h; cases h
  | ok deps =>
      rw [hc] at h
      cases h
      exact List.sorted_insertionSort depLe deps

/-- C9 witness: a package manager exposing entries named `b` and `a` in that
iteration order scans without error and the report comes back sorted. -/
theorem c9_dependancies_sorted_by_name_witness :
    List.Sorted depLe
      [{ name := "a", packageName := "", installed := false, installCommand := "",
          version := "", optional := false, external := false },
        { name := "b", packageName := "", installed := false, installCommand := "",
          version := "", optional := false, external := false }] :=
  c9_dependancies_sorted_by_name
    (PM.mk (ε := Unit) [("b", []), ("a", [])] (fun _ => .ok false)
      (fun _ => .ok false) (fun _ => "") (fun _ => ""))
    [{ name := "a", packageName := "", installed := false, installCommand := "",
        version := "", optional := false, external := false },
      { name := "b", packageName := "", installed := false, installCommand := "",
        version := "", optional := false, external := false }]
    rfl

/-- C10: for distinct event names, registering a listener for one name and
notifying that name both leave the stored sequence for the other name
untouched: registration writes only under its own key and the notification
cleanup stores only under its own key. -/
theorem c10_register_and_notify_frame {α : Type}
    (reg : Registry) (x y : String) (cb : Nat) (m : EventMessage α)
    (h : y ≠ x) :
    RegisterListener reg x cb y = reg y
    ∧ (notifyListeners reg x m).1 y = reg y := by
  constructor
  · simp [RegisterListener, h]
  · unfold notifyListeners
    cases hx : reg x <;> simp [h]

/-- C10 witness: registering for and notifying `"x"` leaves the sequence
stored for `"y"` unchanged. -/
theorem c10_register_and_notify_frame_witness :
    RegisterListener (fun k => if k = "y" then
        some [{ callback := 9, counter := 0, delete := false }] else none) "x" 1 "y" =
      (fun k => if k = "y" then
        some [{ callback := 9, counter := 0, delete := false }] else none) "y"
    ∧ (notifyListeners (fun k => if k = "y" then
          some [{ callback := 9, counter := 0, delete := false }] else none) "x"
        { name := "x", data := ([] : List Nat) }).1 "y" =
      (fun k => if k = "y" then
        some [{ callback := 9, counter := 0, delete := false }] else none) "y" :=
  c10_register_and_notify_frame
    (fun k => if k = "y" then
      some [{ callback := 9, counter := 0, delete := false }] else none)
    "x" "y" 1 { name := "x", data := ([] : List Nat) } (by decide)

end Wails
